import Mathlib

/-!
Shallow embedding of flopy4 array handling (src/flopy4/array.py).

Modelling conventions:
* Python floats are modelled as exact rationals.  Python guarantees
  that the textual repr of a float parses back to the same float, so a
  numeric literal in the text stream is modelled as a token carrying
  its value.
* A text stream is a list of lines; a line is a list of tokens
  (whitespace-separated words of the original text).  Indentation is
  irrelevant to the tokenizer and is not modelled.
* Exceptions become values of an error type; loading returns Except.
-/

namespace Flopy4

/-- How a MODFLOW 6 input array is represented in an input file
(class MFArrayType, array.py lines 158-166). -/
inductive How where
  | internal
  | constant
  | external
deriving DecidableEq

/-- Python str.upper() for the ASCII keywords, names and paths of
this format: upper-case every character. -/
def pyUpper (s : String) : String := String.mk (s.data.map Char.toUpper)

/-- Python str.lower() likewise. -/
def pyLower (s : String) : String := String.mk (s.data.map Char.toLower)

/-- The enum value string of each MFArrayType member
(internal = "INTERNAL", constant = "CONSTANT", external = "OPEN/CLOSE"). -/
def MFArrayType.toString : How → String
  | .internal => "INTERNAL"
  | .constant => "CONSTANT"
  | .external => "OPEN/CLOSE"

/-- MFArrayType.from_string (array.py lines 172-176): iterate the members
in declaration order, returning the first whose value equals the
upper-cased input; falling off the loop returns Python None. -/
def MFArrayType.fromString (s : String) : Option How :=
  if pyUpper s = "INTERNAL" then some How.internal
  else if pyUpper s = "CONSTANT" then some How.constant
  else if pyUpper s = "OPEN/CLOSE" then some How.external
  else none

/-- A whitespace-delimited token of the text stream.  A numeric literal
carries its exact value (Python repr/parse of a float round-trips).
The badGlue constructor models two tokens written with no separator
between them (the rank-2 internal writer defect, array.py line 390-392,
where the first data row is appended directly after the control line
text); such a concatenation is never a keyword and never parses as a
float (the numeral texts involved always contain a dot, so a glued
pair contains letters or two dots). -/
inductive Tok where
  | word (s : String)
  | num (q : ℚ)
  | badGlue (t1 t2 : Tok)
deriving DecidableEq

/-- A line of the stream: its tokens in order. -/
abbrev Line := List Tok

/-- A seekable text stream, modelled by its remaining lines. -/
abbrev Stream := List Line

/-- The filesystem visible to external (OPEN/CLOSE) loading: an
association from path to file content. -/
abbrev FS := List (String × Stream)

/-- Python str.startswith at character level. -/
def strStarts (s p : String) : Bool := p.data.isPrefixOf s.data

/-- Whether a token begins a comment.  Modelled from the external
helper flopy.utils.flopy_io.line_strip, which truncates the line at
the first occurrence of ";", "#" or "!!"; at token granularity a line
is truncated from its first comment-starting token on. -/
def isCommentTok : Tok → Bool
  | .word s => strStarts s ";" || strStarts s "#" || strStarts s "!!"
  | .num _ => false
  | .badGlue t1 _ => isCommentTok t1

/-- Modelled from the external helper flopy.utils.flopy_io.line_strip:
drop the comment tail of a line (leading/trailing whitespace and comma
handling are absorbed by the token model). -/
def lineStripL (l : Line) : Line :=
  l.takeWhile (fun t => !isCommentTok t)

/-- Lower-case a token (numeric literals are unaffected). -/
def lowerTok : Tok → Tok
  | .word s => .word (pyLower s)
  | .num q => .num q
  | .badGlue t1 t2 => .badGlue (lowerTok t1) (lowerTok t2)

/-- Lower-case every token of a line. -/
def lowerLine (l : Line) : Line := l.map lowerTok

/-- Modelled from the external helper flopy.utils.flopy_io
.multi_line_strip: read lines until line_strip yields a non-blank
line, and return it lower-cased together with the rest of the stream;
at end of stream the Python helper never returns (modelled as none). -/
def multiLineStrip : Stream → Option (Line × Stream)
  | [] => none
  | l :: ls =>
      let sl := lineStripL l
      if sl.isEmpty then multiLineStrip ls else some (lowerLine sl, ls)

/-- Whether CPython renders the float q in plain fixed-point notation,
so that its repr consists of digits and a dot only: this holds exactly
for non-negative floats that are zero or lie in [1e-4, 1e16) (outside
that range repr uses an exponent, and negatives carry a minus sign).
Such a rendering, and only such, matches the numeric-line pattern
"^[0-9. ]+$" used by MFArray.read_array (array.py line 534). -/
def rendersPlain (q : ℚ) : Bool :=
  decide (0 ≤ q ∧ (q = 0 ∨ (1 / 10000 ≤ q ∧ q < 10 ^ 16)))

/-- Whether a token is a numeric literal whose text matches the
numbers-and-whitespace pattern of read_array. -/
def isPlainNumTok : Tok → Bool
  | .num q => rendersPlain q
  | _ => false

/-- Whether a stripped line matches the pattern "^[0-9. ]+$"
(array.py line 534): it must be non-empty and consist solely of
plainly rendered numerals. -/
def isNumericLine (l : Line) : Bool :=
  !l.isEmpty && l.all isPlainNumTok

/-- The float values carried by the numeric tokens of a line; on a
line that passed isNumericLine this is exactly what np.genfromtxt
recovers from the line text. -/
def parseNums (l : Line) : List ℚ :=
  l.filterMap (fun t => match t with | .num q => some q | _ => none)

/-- MFArray.read_array (array.py lines 522-541): repeatedly remember
the position, read a line, strip it, and stop (rewinding to the
remembered position) once the stripped line fails the numeric-only
pattern; the consumed stripped lines are joined and parsed by
np.genfromtxt into one flat float sequence.  Returns the parsed
values and the rewound stream. -/
def readArrayGo : Stream → List ℚ × Stream
  | [] => ([], [])
  | l :: ls =>
      let sl := lineStripL l
      if isNumericLine sl then
        let r := readArrayGo ls
        (parseNums sl ++ r.1, r.2)
      else ([], l :: ls)

/-- The Python value held in the shape slot of MFArray.load and of an
MFArray: either a still-symbolic string, a plain int (the resolved
flat node count), or a tuple whose entries are ints or None (the
dimension lookups in array.py lines 446-450 can yield None). -/
inductive PyShape where
  | str (s : String)
  | nat (n : ℕ)
  | tup (dims : List (Option ℕ))
deriving DecidableEq

/-- Number of elements the shape describes, when it is a fully
concrete int or tuple: np.ones(shape) and ndarray.reshape(shape)
succeed exactly on such shapes (given a matching buffer length). -/
def PyShape.size? : PyShape → Option ℕ
  | .str _ => none
  | .nat n => some n
  | .tup ds => (ds.mapM id).map List.prod

/-- Rank of the shape as seen by len(values.shape) after reshape. -/
def PyShape.rank : PyShape → ℕ
  | .str _ => 0
  | .nat _ => 1
  | .tup ds => ds.length

mutual
/-- The _value slot of an MFArray: Python None, a flat float buffer
(Internal/External), a single scalar (Constant), or the object array
of per-layer MFArrays (layered). -/
inductive MFValue where
  | vnone
  | vbuf (vs : List ℚ)
  | vscalar (q : ℚ)
  | vlayers (ls : List MFArray)

/-- An MFArray (array.py lines 179-233): the fields stored by
__init__ that the array semantics reads (_shape, _value, _how,
_factor, _path, the layered flag, and the parameter name). -/
inductive MFArray where
  | mk (shape : PyShape) (val : MFValue) (how : Option How)
       (factor : Option ℚ) (path : Option String)
       (layered : Bool) (name : Option String)
end

/-- The _shape field. -/
def MFArray.shapeF : MFArray → PyShape
  | .mk s _ _ _ _ _ _ => s

/-- The _value field. -/
def MFArray.valF : MFArray → MFValue
  | .mk _ v _ _ _ _ _ => v

/-- The _how field. -/
def MFArray.howF : MFArray → Option How
  | .mk _ _ h _ _ _ _ => h

/-- The _factor field. -/
def MFArray.factorF : MFArray → Option ℚ
  | .mk _ _ _ f _ _ _ => f

/-- The _path field. -/
def MFArray.pathF : MFArray → Option String
  | .mk _ _ _ _ p _ _ => p

/-- The layered flag. -/
def MFArray.layeredF : MFArray → Bool
  | .mk _ _ _ _ _ l _ => l

/-- The parameter name. -/
def MFArray.nameF : MFArray → Option String
  | .mk _ _ _ _ _ _ n => n

mutual
/-- The raw property (array.py lines 307-321) flattened to the
underlying float list: per-layer raws stacked when layered, the
scalar broadcast over the shape for Constant, the buffer reshaped to
the shape otherwise.  Returns none where the Python property raises
(missing data, symbolic or mismatched shape, a non-scalar value on a
Constant array, a non-sequence value on a layered array). -/
def MFArray.rawFlat : MFArray → Option (List ℚ)
  | .mk sh v how _ _ layered _ =>
    if layered then
      match v with
      | .vlayers ls => (rawFlatList ls).map List.flatten
      | _ => none
    else
      match how, v with
      | some .constant, .vscalar q => (PyShape.size? sh).map (fun m => List.replicate m q)
      | some .constant, _ => none
      | _, .vbuf vs => if PyShape.size? sh = some vs.length then some vs else none
      | _, _ => none

/-- Raw buffers of a list of layers, all of which must succeed. -/
def rawFlatList : List MFArray → Option (List (List ℚ))
  | [] => some []
  | a :: as =>
      match MFArray.rawFlat a, rawFlatList as with
      | some v, some vs => some (v :: vs)
      | _, _ => none
end

/-- The non-layered branch of the factor property (array.py lines
332-335): the stored factor, defaulting to 1.0 when absent. -/
def MFArray.factorScalar (a : MFArray) : ℚ :=
  match a.factorF with
  | none => 1
  | some f => f

mutual
/-- The value property (array.py lines 276-293) flattened to the
underlying float list: None data returns none; layered arrays stack
the per-layer values; a Constant array broadcasts scalar times factor
over the shape; otherwise the buffer is reshaped and multiplied by
the factor (which defaults to 1.0). -/
def MFArray.valueFlat : MFArray → Option (List ℚ)
  | .mk sh v how fac _ layered _ =>
    match v with
    | .vnone => none
    | .vlayers ls =>
        if layered then (valueFlatList ls).map List.flatten else none
    | .vscalar q =>
        if layered then none
        else
          let f := match fac with | none => 1 | some f => f
          match how with
          | some .constant => (PyShape.size? sh).map (fun m => List.replicate m (q * f))
          | _ => none
    | .vbuf vs =>
        if layered then none
        else
          let f := match fac with | none => 1 | some f => f
          match how with
          | some .constant => none
          | _ =>
              if PyShape.size? sh = some vs.length then some (vs.map (· * f)) else none

/-- Values of a list of layers, all of which must succeed. -/
def valueFlatList : List MFArray → Option (List (List ℚ))
  | [] => some []
  | a :: as =>
      match MFArray.valueFlat a, valueFlatList as with
      | some v, some vs => some (v :: vs)
      | _, _ => none
end

/-- Calling the value property: the result paired with the receiver
afterwards.  The property body (array.py lines 276-293) contains no
assignment to self, so the receiver is returned unchanged. -/
def MFArray.valueCall (a : MFArray) : Option (List ℚ) × MFArray :=
  (a.valueFlat, a)

/-- Calling the raw property: likewise read-only (lines 307-321). -/
def MFArray.rawCall (a : MFArray) : Option (List ℚ) × MFArray :=
  (a.rawFlat, a)

/-- Shape of the Python value returned by the factor property: a
scalar for a non-layered array, a (possibly nested) per-layer list
for a layered one. -/
inductive FactorV where
  | one (q : ℚ)
  | per (l : List FactorV)

/-- Shape of the Python value returned by the how property. -/
inductive HowV where
  | one (h : Option How)
  | per (l : List HowV)

mutual
/-- The factor property (array.py lines 323-335): a layered array
returns the list of its layers' factors, otherwise the stored factor
defaulted to 1.0.  Returns none where Python raises (a layered array
whose value is not a layer sequence). -/
def MFArray.factorProp : MFArray → Option FactorV
  | .mk _ v _ fac _ layered _ =>
    if layered then
      match v with
      | .vlayers ls => (factorPropList ls).map FactorV.per
      | _ => none
    else
      some (.one (match fac with | none => 1 | some f => f))

/-- Factors of a list of layers. -/
def factorPropList : List MFArray → Option (List FactorV)
  | [] => some []
  | a :: as =>
      match MFArray.factorProp a, factorPropList as with
      | some v, some vs => some (v :: vs)
      | _, _ => none
end

mutual
/-- The how property (array.py lines 337-346): a layered array
returns the list of its layers' hows, otherwise the stored _how. -/
def MFArray.howProp : MFArray → Option HowV
  | .mk _ v how _ _ layered _ =>
    if layered then
      match v with
      | .vlayers ls => (howPropList ls).map HowV.per
      | _ => none
    else
      some (.one how)

/-- Hows of a list of layers. -/
def howPropList : List MFArray → Option (List HowV)
  | [] => some []
  | a :: as =>
      match MFArray.howProp a, howPropList as with
      | some v, some vs => some (v :: vs)
      | _, _ => none
end

/-- Absolute value of a rational, written out so that it evaluates by
kernel reduction. -/
def ratAbs (q : ℚ) : ℚ := if q < 0 then -q else q

/-- np.allclose(values, b) with the NumPy defaults rtol = 1e-5 and
atol = 1e-8: every element within atol + rtol * abs(b) of b. -/
def allclose (vs : List ℚ) (b : ℚ) : Bool :=
  vs.all (fun a => decide (ratAbs (a - b) ≤ 1 / 10 ^ 8 + (1 / 10 ^ 5) * ratAbs b))

mutual
/-- The tail of __setitem__ (array.py lines 240-253) applied to the
already-updated flat buffer values (lines 238-239 compute values =
self.raw and perform the indexed assignment into it; values here is
that buffer after the assignment).  Layered: assign each layer its
row through the layer's own full-slice __setitem__.  Otherwise, on a
Constant array, keep the single scalar values[0] when
np.allclose(values, values[0]) holds and promote to Internal with the
full buffer when it does not; on any other array store the buffer.
Python states on which the source raises (a layered array without a
layer sequence, an empty values[0] lookup) are returned unchanged. -/
def MFArray.setWith : MFArray → List ℚ → MFArray
  | .mk sh v how fac p layered nm, values =>
    if layered then
      match v with
      | .vlayers ls => .mk sh (.vlayers (setLayers ls values)) how fac p layered nm
      | _ => .mk sh v how fac p layered nm
    else
      match how with
      | some .constant =>
          match values with
          | [] => .mk sh v how fac p layered nm
          | v0 :: _ =>
              if allclose values v0 then
                .mk sh (.vscalar v0) how fac p layered nm
              else
                .mk sh (.vbuf values) (some .internal) fac p layered nm
      | _ => .mk sh (.vbuf values) how fac p layered nm

/-- One pass of the enumerate loop in the layered branch: layer ix
receives row ix of the stacked buffer, whose width is the layer's own
raw size. -/
def setLayers : List MFArray → List ℚ → List MFArray
  | [], _ => []
  | a :: as, values =>
      let m := ((MFArray.rawFlat a).map List.length).getD 0
      MFArray.setWith a (values.take m) :: setLayers as (values.drop m)
end

/-- Element assignment a[i] = x through __setitem__ (array.py lines
237-253) for an integer index into a rank-1 non-layered array (the
only indexing form the claims exercise): read the raw buffer, update
position i, and run the collapse logic.  States on which the Python
raises before mutating (no readable raw buffer, index out of range)
are returned unchanged. -/
def MFArray.setIdx (a : MFArray) (i : ℕ) (x : ℚ) : MFArray :=
  match a.rawFlat with
  | none => a
  | some vs => if i < vs.length then a.setWith (vs.set i x) else a

/-- The value setter (array.py lines 295-305): None is ignored; an
array whose ndarray shape differs from the declared shape raises
ValueError (leaving the receiver unchanged, modelled here); otherwise
the buffer is stored as _value.  The declared self.shape consulted by
the setter is the shape given at construction (MFParam stores the
constructor argument; modelled from the spec section 3, shape is
fixed at construction). -/
def MFArray.setValue (a : MFArray) (nv : Option (List ℕ × List ℚ)) : MFArray :=
  match nv with
  | none => a
  | some (shp, arr) =>
      if PyShape.tup (shp.map some) = a.shapeF then
        match a with
        | .mk sh _ how fac p layered nm => .mk sh (.vbuf arr) how fac p layered nm
      else a

mutual
/-- NumPyArrayMixin.__iadd__ (array.py lines 27-34): recurse into the
layers when layered, otherwise add elementwise into _value (a scalar
for Constant arrays, a flat buffer otherwise; the unreachable crash
states are returned unchanged). -/
def MFArray.iadd : MFArray → ℚ → MFArray
  | .mk sh v how fac p layered nm, o =>
    if layered then
      match v with
      | .vlayers ls => .mk sh (.vlayers (iaddList ls o)) how fac p layered nm
      | _ => .mk sh v how fac p layered nm
    else
      match v with
      | .vbuf vs => .mk sh (.vbuf (vs.map (· + o))) how fac p layered nm
      | .vscalar q => .mk sh (.vscalar (q + o)) how fac p layered nm
      | _ => .mk sh v how fac p layered nm

/-- The layered loop of __iadd__. -/
def iaddList : List MFArray → ℚ → List MFArray
  | [], _ => []
  | a :: as, o => MFArray.iadd a o :: iaddList as o
end

mutual
/-- NumPyArrayMixin.__isub__ (array.py lines 45-52). -/
def MFArray.isub : MFArray → ℚ → MFArray
  | .mk sh v how fac p layered nm, o =>
    if layered then
      match v with
      | .vlayers ls => .mk sh (.vlayers (isubList ls o)) how fac p layered nm
      | _ => .mk sh v how fac p layered nm
    else
      match v with
      | .vbuf vs => .mk sh (.vbuf (vs.map (· - o))) how fac p layered nm
      | .vscalar q => .mk sh (.vscalar (q - o)) how fac p layered nm
      | _ => .mk sh v how fac p layered nm

/-- The layered loop of __isub__. -/
def isubList : List MFArray → ℚ → List MFArray
  | [], _ => []
  | a :: as, o => MFArray.isub a o :: isubList as o
end

mutual
/-- NumPyArrayMixin.__imul__ (array.py lines 36-43). -/
def MFArray.imul : MFArray → ℚ → MFArray
  | .mk sh v how fac p layered nm, o =>
    if layered then
      match v with
      | .vlayers ls => .mk sh (.vlayers (imulList ls o)) how fac p layered nm
      | _ => .mk sh v how fac p layered nm
    else
      match v with
      | .vbuf vs => .mk sh (.vbuf (vs.map (· * o))) how fac p layered nm
      | .vscalar q => .mk sh (.vscalar (q * o)) how fac p layered nm
      | _ => .mk sh v how fac p layered nm

/-- The layered loop of __imul__. -/
def imulList : List MFArray → ℚ → List MFArray
  | [], _ => []
  | a :: as, o => MFArray.imul a o :: imulList as o
end

mutual
/-- NumPyArrayMixin.__itruediv__ (array.py lines 54-61). -/
def MFArray.itruediv : MFArray → ℚ → MFArray
  | .mk sh v how fac p layered nm, o =>
    if layered then
      match v with
      | .vlayers ls => .mk sh (.vlayers (itruedivList ls o)) how fac p layered nm
      | _ => .mk sh v how fac p layered nm
    else
      match v with
      | .vbuf vs => .mk sh (.vbuf (vs.map (· / o))) how fac p layered nm
      | .vscalar q => .mk sh (.vscalar (q / o)) how fac p layered nm
      | _ => .mk sh v how fac p layered nm

/-- The layered loop of __itruediv__. -/
def itruedivList : List MFArray → ℚ → List MFArray
  | [], _ => []
  | a :: as, o => MFArray.itruediv a o :: itruedivList as o
end

/-- NumPyArrayMixin.__ifloordiv__ (array.py lines 63-70).  Note that
both branches of the source perform true division (slash-equals), not
floor division: the layered loop runs mfa /= other and the flat
branch runs self._value /= other. -/
def MFArray.ifloordiv : MFArray → ℚ → MFArray
  | .mk sh v how fac p layered nm, o =>
    if layered then
      match v with
      | .vlayers ls => .mk sh (.vlayers (itruedivList ls o)) how fac p layered nm
      | _ => .mk sh v how fac p layered nm
    else
      match v with
      | .vbuf vs => .mk sh (.vbuf (vs.map (· / o))) how fac p layered nm
      | .vscalar q => .mk sh (.vscalar (q / o)) how fac p layered nm
      | _ => .mk sh v how fac p layered nm

/-- NumPyArrayMixin.__ipow__ (array.py lines 72-79).  The layered
loop of the source runs mfa /= other (division, not power); the flat
branch runs self._value **= other.  The exponent is modelled as a
natural number so that exponentiation stays within the rationals. -/
def MFArray.ipow : MFArray → ℕ → MFArray
  | .mk sh v how fac p layered nm, e =>
    if layered then
      match v with
      | .vlayers ls => .mk sh (.vlayers (itruedivList ls (e : ℚ))) how fac p layered nm
      | _ => .mk sh v how fac p layered nm
    else
      match v with
      | .vbuf vs => .mk sh (.vbuf (vs.map (· ^ e))) how fac p layered nm
      | .vscalar q => .mk sh (.vscalar (q ^ e)) how fac p layered nm
      | _ => .mk sh v how fac p layered nm

/-- Python truthiness of the stored factor as tested by the writer
(if self._factor, array.py lines 370 and 404): present and nonzero. -/
def factorTruthy : Option ℚ → Bool
  | none => false
  | some q => decide (q ≠ 0)

/-- Rows of width c of a flat buffer (the row iteration the writer
performs over the reshaped value). -/
def chunkRows (c : ℕ) (vs : List ℚ) : List (List ℚ) :=
  if c = 0 ∨ vs = [] then [] else vs.take c :: chunkRows c (vs.drop c)
termination_by vs.length
decreasing_by
  simp only [List.length_drop]
  rename_i h
  rcases Nat.eq_zero_or_pos c with hc | hc
  · exact absurd (Or.inl hc) h
  · have : vs.length ≠ 0 := by
      intro h0
      exact h (Or.inr (List.eq_nil_of_length_eq_zero h0))
    omega

/-- A line consisting of the numeric literals of a row. -/
def numLine (row : List ℚ) : Line := row.map Tok.num

/-- The control line of an internal representation: the keyword
followed by FACTOR and the factor when the stored factor is truthy
(array.py lines 369-371 and 400-405). -/
def internalCtl (fac : Option ℚ) : Line :=
  Tok.word "INTERNAL" ::
    (if factorTruthy fac then [Tok.word "FACTOR", Tok.num (match fac with | some q => q | none => 0)] else [])

/-- Concatenation of a control line with a data row written with no
separator in between: the last control token and the first row token
fuse into one unparsable token.  This happens in the non-layered
rank-2 branch of the writer (array.py lines 390-392 rebind v to the
newline-joined rows without a leading newline, so line 406 appends
the first row directly after the control-line text). -/
def glueLine (ctl row : Line) : Line :=
  match ctl.getLast?, row with
  | some t, u :: rest => ctl.dropLast ++ Tok.badGlue t u :: rest
  | _, _ => ctl ++ row

/-- The per-layer emission of the layered branch of MFArray.write
(array.py lines 352-383).  Internal rank 1 emits the control line,
one line with all values, and a blank line (v of line 356-358 carries
its own trailing newline and line 372 appends another); rank 2 emits
the control line then one line per row; rank 3 emits the control
line, a whitespace-only line, then one line per row.  External emits
OPEN/CLOSE with the path (str(None) when absent); Constant emits the
keyword and the scalar.  Returns none where the Python code raises
(unreadable raw value, a _how with no branch leaving the line
variable unbound, a Constant layer holding a non-scalar whose str()
would not be a numeral). -/
def writeLayer (a : MFArray) : Option (List Line) :=
  match a.rawFlat with
  | none => none
  | some vs =>
    match a.howF with
    | some .internal =>
        let ctl := internalCtl a.factorF
        match a.shapeF.rank, a.shapeF with
        | 1, _ => some [ctl, numLine vs, []]
        | 2, .tup [_, some c] => some (ctl :: (chunkRows c vs).map numLine)
        | 3, .tup [_, _, some c] => some (ctl :: [] :: (chunkRows c vs).map numLine)
        | _, _ => none
    | some .external =>
        some [[Tok.word "OPEN/CLOSE", Tok.word (match a.pathF with | some p => p | none => "None")]]
    | some .constant =>
        match a.valF with
        | .vscalar q => some [[Tok.word "CONSTANT", Tok.num q]]
        | _ => none
    | none => none

/-- The layer loop of the layered writer. -/
def writeLayers : List MFArray → Option (List Line)
  | [] => some []
  | a :: as =>
      match writeLayer a, writeLayers as with
      | some l, some ls => some (l ++ ls)
      | _, _ => none

/-- MFArray.write (array.py lines 348-419) as the list of lines the
method appends to the sink.  A layered array emits NAME LAYERED then
each layer through writeLayer.  A non-layered array emits the NAME
line and then, for Internal rank 1, the control line and one line
holding all values; for Internal rank 2, the first data row glued
directly onto the control line (the source defect described at
glueLine) and the remaining rows one per line; for Internal rank 3,
the control line (with trailing spaces only) and one line per row;
for External, OPEN/CLOSE with the path; for Constant, the keyword and
the scalar.  The raw buffer is computed up front (line 385) for every
branch, so an unreadable raw value is a crash (none) even for
Constant and External.  A missing name, a _how with no branch, and a
Constant holding a non-scalar are crashes as well. -/
def MFArray.write (a : MFArray) : Option (List Line) :=
  match a.nameF with
  | none => none
  | some nm =>
    if a.layeredF then
      match a.valF with
      | .vlayers ls =>
          (writeLayers ls).map (fun body => [Tok.word (pyUpper nm), Tok.word "LAYERED"] :: body)
      | _ => none
    else
      match a.rawFlat with
      | none => none
      | some vs =>
        match a.howF with
        | some .internal =>
            let ctl := internalCtl a.factorF
            match a.shapeF.rank, a.shapeF with
            | 1, _ => some [[Tok.word (pyUpper nm)], ctl, numLine vs]
            | 2, .tup [_, some c] =>
                match chunkRows c vs with
                | [] => some [[Tok.word (pyUpper nm)], ctl]
                | row0 :: rows =>
                    some ([Tok.word (pyUpper nm)] :: glueLine ctl (numLine row0) :: rows.map numLine)
            | 3, .tup [_, _, some c] =>
                some ([Tok.word (pyUpper nm)] :: ctl :: (chunkRows c vs).map numLine)
            | _, _ => none
        | some .external =>
            some [[Tok.word (pyUpper nm)],
              [Tok.word "OPEN/CLOSE", Tok.word (match a.pathF with | some p => p | none => "None")]]
        | some .constant =>
            match a.valF with
            | .vscalar q => some [[Tok.word (pyUpper nm)], [Tok.word "CONSTANT", Tok.num q]]
            | _ => none
        | none => none

/-- Calling write: the emitted text paired with the receiver, which
the method never mutates. -/
def MFArray.writeCall (a : MFArray) : Option (List Line) × MFArray :=
  (a.write, a)

/-- The Python exceptions the loading path can raise.  The spec error
taxonomy names notImplemented UnknownArrayRepresentation (the source
raises NotImplementedError, array.py line 507), valueError
NumericParseError, and ioError IOError. -/
inductive LoadErr where
  | eof
  | notImplemented
  | valueError
  | indexError
  | typeError
  | ioError (path : String)
deriving DecidableEq

/-- float(token): a numeric literal parses to its value; a keyword or
a glued token raises ValueError (in this format no plain word is ever
a float literal, since numerals are modelled as numeric tokens). -/
def parseFloatTok : Tok → Option ℚ
  | .num q => some q
  | _ => none

/-- MFArrayType.from_string applied to a stream token: tokens other
than words never match a representation keyword. -/
def fromTok : Tok → Option How
  | .word s => MFArrayType.fromString s
  | _ => none

/-- Index of the first token equal to the string "iprn" (the Python
membership and index tests of array.py lines 483-484 compare the
control-line tokens, which are strings, against CommonNames.iprn
.lower(); numeric tokens never equal it). -/
def iprnIdx : Line → Option ℕ
  | [] => none
  | Tok.word s :: ts => if s = "iprn" then some 0 else (iprnIdx ts).map (· + 1)
  | _ :: ts => (iprnIdx ts).map (· + 1)

/-- Discarding the IPRN control pair (array.py lines 483-486):
CommonNames.iprn.lower() is the literal "iprn" (from the MODFLOW 6
print-control keyword IPRN; flopy4.constants is not under src).  When
present at index idx, the source pops idx+1 then idx; popping past
the end raises IndexError. -/
def stripIprn (cl : Line) : Except LoadErr Line :=
  match iprnIdx cl with
  | none => Except.ok cl
  | some i =>
      if i + 1 < cl.length then Except.ok (cl.take i ++ cl.drop (i + 2))
      else Except.error LoadErr.indexError

/-- The optional trailing factor of a control line (array.py lines
509-511): parsed from position clpos+1 only when the control line has
more than two tokens; a missing position raises IndexError and an
unparsable token raises ValueError. -/
def parseFactor (cl : Line) (pos : ℕ) : Except LoadErr (Option ℚ) :=
  if 2 < cl.length then
    match cl.get? pos with
    | none => Except.error LoadErr.indexError
    | some t =>
        match parseFloatTok t with
        | none => Except.error LoadErr.valueError
        | some q => Except.ok (some q)
  else Except.ok none

/-- Filesystem lookup for OPEN/CLOSE loading (cwd / extpath). -/
def fsLookup (fs : FS) (p : String) : Option Stream :=
  match fs.find? (fun e => e.1 = p) with
  | some e => some e.2
  | none => none

/-- MFArray._load (array.py lines 479-520): read the control line via
multi_line_strip (lower-cased, comments stripped), discard an IPRN
pair, select the representation from the first token (an unrecognized
keyword raises, line 507; the spec taxonomy calls this
UnknownArrayRepresentation), then read the data: Internal consumes
the numeric body via read_array; Constant parses the second token as
the scalar; External resolves the second token as a path against cwd,
opening the file (IOError when missing) and reading its whole numeric
prefix.  Finally the optional factor is parsed and the MFArray built
with layered False.  The name argument mirrors the name keyword
passed through kwargs. -/
def MFArray.load0 (f : Stream) (cwd : FS) (shape : PyShape) (name : Option String) :
    Except LoadErr (MFArray × Stream) :=
  match multiLineStrip f with
  | none => Except.error LoadErr.eof
  | some (cl0, f1) =>
    match stripIprn cl0 with
    | Except.error e => Except.error e
    | Except.ok cl =>
      match cl.head? with
      | none => Except.error LoadErr.indexError
      | some t0 =>
        match fromTok t0 with
        | some How.internal =>
            let r := readArrayGo f1
            match parseFactor cl 2 with
            | Except.error e => Except.error e
            | Except.ok fac =>
                Except.ok (.mk shape (.vbuf r.1) (some .internal) fac none false name, r.2)
        | some How.constant =>
            match cl.get? 1 with
            | none => Except.error LoadErr.indexError
            | some t1 =>
              match parseFloatTok t1 with
              | none => Except.error LoadErr.valueError
              | some q =>
                match parseFactor cl 3 with
                | Except.error e => Except.error e
                | Except.ok fac =>
                    Except.ok (.mk shape (.vscalar q) (some .constant) fac none false name, f1)
        | some How.external =>
            match cl.get? 1 with
            | none => Except.error LoadErr.indexError
            | some t1 =>
              match t1 with
              | Tok.word p =>
                match fsLookup cwd p with
                | none => Except.error (LoadErr.ioError p)
                | some content =>
                  match parseFactor cl 3 with
                  | Except.error e => Except.error e
                  | Except.ok fac =>
                      Except.ok
                        (.mk shape (.vbuf (readArrayGo content).1) (some .external) fac (some p) false name, f1)
              | _ => Except.error LoadErr.typeError
        | none => Except.error LoadErr.notImplemented

/-- Model dimensions visible through blk_params["dimensions"]
(array.py lines 446-450): each lookup yields the declared count or
Python None. -/
structure Dims where
  nlay : Option ℕ
  nrow : Option ℕ
  ncol : Option ℕ
  ncpl : Option ℕ
  nodes : Option ℕ
deriving DecidableEq

/-- Characters of a string split on a separator character (Python
str.split("/"), at character level so that it evaluates by kernel
reduction). -/
def splitOnChar (c : Char) : List Char → List (List Char)
  | [] => [[]]
  | x :: xs =>
      let r := splitOnChar c xs
      if x = c then [] :: r
      else
        match r with
        | [] => [[x]]
        | h :: t => (x :: h) :: t

/-- Python mempath.split("/"). -/
def pySplitSlash (s : String) : List String :=
  (splitOnChar (Char.ofNat 47) s.data).map String.mk

/-- Python truthiness of an optional count. -/
def truthyO : Option ℕ → Bool
  | none => false
  | some n => decide (n ≠ 0)

/-- The keyword arguments MFArray.load pops (array.py lines 423,
432-436): the layered hint, the parameter name, model_shape, the
dimensions entry of blk_params, and mempath. -/
structure LoadKw where
  layered : Bool
  name : Option String
  modelShape : Option (List ℕ)
  dims : Option Dims
  mempath : Option String

/-- Shape resolution (array.py lines 437-456): a truthy model_shape
resolves a symbolic shape directly ("(nodes)" to the flat product,
anything else to model_shape itself); otherwise, when blk_params
carries a dimensions block, a symbolic shape is resolved only when
"dis" occurs in the split mempath (mempath None then crashes on
split), picking (nlay, nrow, ncol) when nrow and ncol are truthy,
else (nlay, ncpl) when ncpl is truthy, else the flat nodes count when
nodes is truthy, else leaving the string unresolved. -/
def resolveShape (ms : Option (List ℕ)) (dims : Option Dims) (mempath : Option String)
    (shape : PyShape) : Except LoadErr PyShape :=
  match ms, shape with
  | some (d0 :: dr), .str s =>
      if s = "(nodes)" then Except.ok (.nat ((d0 :: dr).prod))
      else Except.ok (.tup ((d0 :: dr).map some))
  | _, _ =>
    match dims, shape with
    | some d, .str _ =>
      match mempath with
      | none => Except.error LoadErr.typeError
      | some mp =>
          if "dis" ∈ pySplitSlash mp then
            if truthyO d.nrow && truthyO d.ncol then Except.ok (.tup [d.nlay, d.nrow, d.ncol])
            else if truthyO d.ncpl then Except.ok (.tup [d.nlay, d.ncpl])
            else if truthyO d.nodes then Except.ok (.nat (match d.nodes with | some n => n | none => 0))
            else Except.ok shape
          else Except.ok shape
    | _, _ => Except.ok shape

/-- The layer loop of the layered branch of MFArray.load (array.py
lines 460-463): nlay successive _load calls on the same stream, each
with the trailing shape.  The source passes name positionally into
the unused layered parameter of _load, so each layer is constructed
with name None. -/
def loadLayers : ℕ → Stream → FS → PyShape → Except LoadErr (List MFArray × Stream)
  | 0, f, _, _ => Except.ok ([], f)
  | n + 1, f, cwd, sh =>
    match MFArray.load0 f cwd sh none with
    | Except.error e => Except.error e
    | Except.ok (a, f1) =>
      match loadLayers n f1 cwd sh with
      | Except.error e => Except.error e
      | Except.ok (as, f2) => Except.ok (a :: as, f2)

/-- MFArray.load (array.py lines 421-477).  With header True the
first non-blank line provides the parameter name (first token) and
turns layering on when its second token is "layered"; with header
False the name comes from kwargs.  The shape is then resolved.  A
layered load reads shape[0] nested representations of shape[1:] and
wraps them in an MFArray with how None, factor None and layered True;
otherwise _load reads a single representation.  Crashes of the
source (subscripting an int or unresolved-string shape, an empty
tuple, a None leading dimension) are the corresponding errors. -/
def MFArray.load (f : Stream) (cwd : FS) (shape0 : PyShape) (header : Bool) (kw : LoadKw) :
    Except LoadErr (MFArray × Stream) :=
  let hdr : Except LoadErr (Bool × Option String × Stream) :=
    if header then
      match multiLineStrip f with
      | none => Except.error LoadErr.eof
      | some (toks, f1) =>
        match toks.head? with
        | some (Tok.word s) =>
            Except.ok (kw.layered || decide (toks.get? 1 = some (Tok.word "layered")), some s, f1)
        | some _ => Except.error LoadErr.typeError
        | none => Except.error LoadErr.indexError
    else Except.ok (kw.layered, kw.name, f)
  match hdr with
  | Except.error e => Except.error e
  | Except.ok (layered0, name, f1) =>
    match resolveShape kw.modelShape kw.dims kw.mempath shape0 with
    | Except.error e => Except.error e
    | Except.ok shape =>
      if layered0 then
        match shape with
        | .tup [] => Except.error LoadErr.indexError
        | .tup (none :: _) => Except.error LoadErr.typeError
        | .tup (some nlay :: rest) =>
          match loadLayers nlay f1 cwd (.tup rest) with
          | Except.error e => Except.error e
          | Except.ok (objs, f2) =>
              Except.ok (.mk shape (.vlayers objs) none none none true name, f2)
        | .nat _ => Except.error LoadErr.typeError
        | .str _ => Except.error LoadErr.typeError
      else
        MFArray.load0 f1 cwd shape name



/-! ### Helper lemmas -/

/-- Shape preservation for the core of __setitem__. -/
theorem setWith_shapeF (a : MFArray) (vs : List ℚ) : (a.setWith vs).shapeF = a.shapeF := by
  cases a with
  | mk sh v how fac p lay nm =>
      unfold MFArray.setWith
      repeat' split
      all_goals rfl

/-- Shape preservation for integer-index assignment. -/
theorem setIdx_shapeF (a : MFArray) (i : ℕ) (x : ℚ) : (a.setIdx i x).shapeF = a.shapeF := by
  unfold MFArray.setIdx
  repeat' split
  all_goals first | rfl | apply setWith_shapeF

/-- Shape preservation for the value setter. -/
theorem setValue_shapeF (a : MFArray) (nv : Option (List ℕ × List ℚ)) :
    (a.setValue nv).shapeF = a.shapeF := by
  unfold MFArray.setValue
  repeat' split
  all_goals rfl

/-- Shape preservation for __iadd__. -/
theorem iadd_shapeF (a : MFArray) (o : ℚ) : (a.iadd o).shapeF = a.shapeF := by
  cases a with
  | mk sh v how fac p lay nm =>
      unfold MFArray.iadd
      repeat' split
      all_goals rfl

/-- Shape preservation for __isub__. -/
theorem isub_shapeF (a : MFArray) (o : ℚ) : (a.isub o).shapeF = a.shapeF := by
  cases a with
  | mk sh v how fac p lay nm =>
      unfold MFArray.isub
      repeat' split
      all_goals rfl

/-- Shape preservation for __imul__. -/
theorem imul_shapeF (a : MFArray) (o : ℚ) : (a.imul o).shapeF = a.shapeF := by
  cases a with
  | mk sh v how fac p lay nm =>
      unfold MFArray.imul
      repeat' split
      all_goals rfl

/-- Shape preservation for __itruediv__. -/
theorem itruediv_shapeF (a : MFArray) (o : ℚ) : (a.itruediv o).shapeF = a.shapeF := by
  cases a with
  | mk sh v how fac p lay nm =>
      unfold MFArray.itruediv
      repeat' split
      all_goals rfl

/-- Shape preservation for __ifloordiv__. -/
theorem ifloordiv_shapeF (a : MFArray) (o : ℚ) : (a.ifloordiv o).shapeF = a.shapeF := by
  cases a with
  | mk sh v how fac p lay nm =>
      simp only [MFArray.ifloordiv]
      repeat' split
      all_goals rfl

/-- Shape preservation for __ipow__. -/
theorem ipow_shapeF (a : MFArray) (e : ℕ) : (a.ipow e).shapeF = a.shapeF := by
  cases a with
  | mk sh v how fac p lay nm =>
      simp only [MFArray.ipow]
      repeat' split
      all_goals rfl

/-! ### Claims -/

/-- C10: each MFArrayType variant round-trips through to_string and
from_string; from_string is case-insensitive (it depends on its input
only through the upper-cased text); and a string matching no variant
keyword yields None instead of an exception. -/
theorem mfarraytype_string_roundtrip :
    (∀ h : How, MFArrayType.fromString (MFArrayType.toString h) = some h)
    ∧ (∀ s t : String, pyUpper s = pyUpper t →
        MFArrayType.fromString s = MFArrayType.fromString t)
    ∧ (∀ s : String, pyUpper s ≠ "INTERNAL" → pyUpper s ≠ "CONSTANT" →
        pyUpper s ≠ "OPEN/CLOSE" → MFArrayType.fromString s = none) := by
  refine ⟨?_, ?_, ?_⟩
  · intro h
    cases h <;> decide
  · intro s t hst
    unfold MFArrayType.fromString
    rw [hst]
  · intro s h1 h2 h3
    unfold MFArrayType.fromString
    rw [if_neg h1, if_neg h2, if_neg h3]

/-- Witness for C10 at concrete strings. -/
theorem mfarraytype_string_roundtrip_witness :
    MFArrayType.fromString "iNtErNaL" = MFArrayType.fromString "INTERNAL"
    ∧ MFArrayType.fromString "bogus" = none :=
  ⟨mfarraytype_string_roundtrip.2.1 "iNtErNaL" "INTERNAL" (by decide),
   mfarraytype_string_roundtrip.2.2 "bogus" (by decide) (by decide) (by decide)⟩

/-- C4: when the control line's first token is none of the three
representation keywords (compared through upper-casing, as
from_string does), _load raises instead of returning a
representation; the source raises NotImplementedError (array.py line
507), the exception the spec taxonomy names
UnknownArrayRepresentation. -/
theorem load0_unknown_representation_fatal
    (f f1 : Stream) (cwd : FS) (sh : PyShape) (nm : Option String)
    (cl0 cl : Line) (t : Tok)
    (h1 : multiLineStrip f = some (cl0, f1))
    (h2 : stripIprn cl0 = Except.ok cl)
    (h3 : cl.head? = some t)
    (h4 : ∀ s, t = Tok.word s →
        pyUpper s ≠ "INTERNAL" ∧ pyUpper s ≠ "CONSTANT" ∧ pyUpper s ≠ "OPEN/CLOSE") :
    MFArray.load0 f cwd sh nm = Except.error LoadErr.notImplemented := by
  have ht : fromTok t = none := by
    cases t with
    | word s =>
        obtain ⟨a1, a2, a3⟩ := h4 s rfl
        simp only [fromTok, MFArrayType.fromString, if_neg a1, if_neg a2, if_neg a3]
    | num q => rfl
    | badGlue t1 t2 => rfl
  unfold MFArray.load0
  simp only [h1, h2, h3, ht]

/-- Witness for C4 on a stream whose control line reads BOGUS 1. -/
theorem load0_unknown_representation_fatal_witness :
    MFArray.load0 [[Tok.word "BOGUS", Tok.num 1]] [] (.nat 2) none
      = Except.error LoadErr.notImplemented :=
  load0_unknown_representation_fatal
    [[Tok.word "BOGUS", Tok.num 1]] [] [] (.nat 2) none
    [Tok.word "bogus", Tok.num 1] [Tok.word "bogus", Tok.num 1] (Tok.word "bogus")
    rfl rfl rfl
    (by intro s hs; cases hs; exact ⟨by decide, by decide, by decide⟩)

/-- C5: read_array consumes exactly the maximal prefix of lines whose
stripped text matches the numeric-only pattern, parses the consumed
lines as one flat float sequence (the concatenation of their values),
and leaves the stream positioned at the first non-matching line. -/
theorem read_array_consumes_maximal_numeric_prefix (f : Stream) :
    readArrayGo f =
      (((f.takeWhile (fun l => isNumericLine (lineStripL l))).map
          (fun l => parseNums (lineStripL l))).flatten,
       f.dropWhile (fun l => isNumericLine (lineStripL l))) := by
  induction f with
  | nil => rfl
  | cons l ls ih =>
      by_cases h : isNumericLine (lineStripL l) = true
      · simp [readArrayGo, h, ih]
      · simp only [Bool.not_eq_true] at h
        simp [readArrayGo, h]

/-- C7 (code defect): __ifloordiv__ true-divides instead of
floor-dividing (array.py lines 63-70 run a slash-equals in both
branches), and the layered branch of __ipow__ divides each layer
instead of exponentiating (line 75).  On the Internal array [5.0],
floor division by 2 must give 2.0 but the code produces 2.5; on a
layered array with the single Internal layer [2.0], raising to the
power 3 must give 8.0 but the code produces 2/3. -/
theorem inplace_floordiv_pow_divide :
    ((MFArray.mk (.tup [some 1]) (.vbuf [5]) (some How.internal) none none false
        (some "a")).ifloordiv 2).valF = .vbuf [5 / 2]
    ∧ (5 : ℚ) / 2 ≠ 2
    ∧ ((MFArray.mk (.tup [some 1, some 1])
          (.vlayers [MFArray.mk (.tup [some 1]) (.vbuf [2]) (some How.internal)
            none none false none])
          none none none true (some "b")).ipow 3).valF
        = .vlayers [MFArray.mk (.tup [some 1]) (.vbuf [2 / 3]) (some How.internal)
            none none false none]
    ∧ (2 : ℚ) / 3 ≠ 8 := by
  refine ⟨?_, by norm_num, ?_, by norm_num⟩
  · norm_num [MFArray.ifloordiv, MFArray.valF]
  · norm_num [MFArray.ipow, MFArray.valF, itruedivList, MFArray.itruediv]

/-- C9: no operation mutates the declared shape: index assignment,
the slice-assignment core, the value setter, every in-place
arithmetic operator, and the read-only value, raw and write calls all
leave the stored shape identical. -/
theorem declared_shape_never_mutated :
    ∀ (a : MFArray) (vs : List ℚ) (i : ℕ) (x o : ℚ) (e : ℕ)
      (nv : Option (List ℕ × List ℚ)),
      (a.setIdx i x).shapeF = a.shapeF
      ∧ (a.setWith vs).shapeF = a.shapeF
      ∧ (a.setValue nv).shapeF = a.shapeF
      ∧ (a.iadd o).shapeF = a.shapeF
      ∧ (a.isub o).shapeF = a.shapeF
      ∧ (a.imul o).shapeF = a.shapeF
      ∧ (a.itruediv o).shapeF = a.shapeF
      ∧ (a.ifloordiv o).shapeF = a.shapeF
      ∧ (a.ipow e).shapeF = a.shapeF
      ∧ a.valueCall.2.shapeF = a.shapeF
      ∧ a.rawCall.2.shapeF = a.shapeF
      ∧ a.writeCall.2.shapeF = a.shapeF := by
  intro a vs i x o e nv
  exact ⟨setIdx_shapeF a i x, setWith_shapeF a vs, setValue_shapeF a nv,
    iadd_shapeF a o, isub_shapeF a o, imul_shapeF a o, itruediv_shapeF a o,
    ifloordiv_shapeF a o, ipow_shapeF a e, rfl, rfl, rfl⟩

/-- C3: for a non-layered MFArray (any of the three variants, or no
data at all), the value property equals the raw property multiplied
elementwise by the factor (defaulted to 1.0 when absent), and reading
value leaves the stored state untouched, so raw is the same before
and after the call. -/
theorem value_equals_raw_times_factor (a : MFArray) (h : a.layeredF = false) :
    a.valueCall.2.rawFlat = a.rawFlat
    ∧ a.valueCall.1 = a.rawFlat.map (fun vs => vs.map (fun x => x * a.factorScalar)) := by
  refine ⟨rfl, ?_⟩
  cases a with
  | mk sh v how fac p lay nm =>
    simp only [MFArray.layeredF] at h
    subst h
    rcases v with _ | vs | q | ls
    · rcases how with _ | hw
      · rfl
      · cases hw <;> rfl
    · rcases how with _ | hw
      · simp only [MFArray.valueCall, MFArray.valueFlat, MFArray.rawFlat,
          MFArray.factorScalar, MFArray.factorF]
        by_cases hsz : PyShape.size? sh = some vs.length <;> simp [hsz]
      · cases hw
        · simp only [MFArray.valueCall, MFArray.valueFlat, MFArray.rawFlat,
            MFArray.factorScalar, MFArray.factorF]
          by_cases hsz : PyShape.size? sh = some vs.length <;> simp [hsz]
        · rfl
        · simp only [MFArray.valueCall, MFArray.valueFlat, MFArray.rawFlat,
            MFArray.factorScalar, MFArray.factorF]
          by_cases hsz : PyShape.size? sh = some vs.length <;> simp [hsz]
    · rcases how with _ | hw
      · rfl
      · cases hw
        · rfl
        · simp only [MFArray.valueCall, MFArray.valueFlat, MFArray.rawFlat,
            MFArray.factorScalar, MFArray.factorF]
          rcases hsz : PyShape.size? sh with _ | m <;> simp [hsz, List.map_replicate]
        · rfl
    · rcases how with _ | hw
      · rfl
      · cases hw <;> rfl

/-- Witness for C3 on an Internal array with factor 2. -/
theorem value_equals_raw_times_factor_witness :
    (MFArray.mk (.tup [some 3]) (.vbuf [1, 2, 3]) (some How.internal) (some 2) none false
        (some "arr")).layeredF = false
    ∧ (MFArray.mk (.tup [some 3]) (.vbuf [1, 2, 3]) (some How.internal) (some 2) none false
        (some "arr")).valueCall.1
      = ((MFArray.mk (.tup [some 3]) (.vbuf [1, 2, 3]) (some How.internal) (some 2) none false
        (some "arr")).rawFlat).map (fun vs => vs.map (fun x =>
          x * (MFArray.mk (.tup [some 3]) (.vbuf [1, 2, 3]) (some How.internal) (some 2) none
            false (some "arr")).factorScalar)) :=
  ⟨rfl, (value_equals_raw_times_factor
    (MFArray.mk (.tup [some 3]) (.vbuf [1, 2, 3]) (some How.internal) (some 2) none false
      (some "arr")) rfl).2⟩

/-- C2 (counterexample): element assignment on a Constant array whose
updated flat values are close but not all equal keeps the variant
Constant, because the source tests np.allclose rather than equality
(array.py line 247).  Here the Constant array of scalar 1 and shape
(2,) receives 1 + 1e-9 at position 1: the updated buffer is
[1, 1 + 1e-9], its entries are not all equal, yet the result is
still Constant with scalar 1. -/
theorem constant_setitem_near_uniform_stays_constant :
    (1 : ℚ) + 1 / 1000000000 ≠ 1
    ∧ ((MFArray.mk (.tup [some 2]) (.vscalar 1) (some How.constant) none none false
        (some "a")).setIdx 1 (1 + 1 / 1000000000)).howF = some How.constant
    ∧ ((MFArray.mk (.tup [some 2]) (.vscalar 1) (some How.constant) none none false
        (some "a")).setIdx 1 (1 + 1 / 1000000000)).valF = .vscalar 1 := by
  refine ⟨by norm_num, ?_, ?_⟩ <;>
    norm_num [MFArray.setIdx, MFArray.rawFlat, PyShape.size?, MFArray.setWith, allclose,
      ratAbs, MFArray.howF, MFArray.valF, List.set, List.mapM, List.mapM.loop, List.replicate]

/-- C2 (amended): on a non-layered Constant array, element assignment
keeps the variant Constant, storing only the scalar values[0], exactly
when the updated flat values all lie within the np.allclose tolerance
(rtol 1e-5, atol 1e-8) of values[0]; otherwise it promotes the
variant to Internal storing the full buffer, and the how property
reflects the outcome.  All-equal buffers always satisfy the
tolerance, but the converse fails, which is the correction. -/
theorem constant_setitem_allclose_collapse
    (sh : PyShape) (n : ℕ) (q x : ℚ) (fac : Option ℚ) (p : Option String)
    (nm : Option String) (i : ℕ)
    (hsz : sh.size? = some n) (hi : i < n) :
    ((MFArray.mk sh (.vscalar q) (some How.constant) fac p false nm).setIdx i x,
        ((MFArray.mk sh (.vscalar q) (some How.constant) fac p false nm).setIdx i x).howProp)
      = (let vs := (List.replicate n q).set i x
         if allclose vs (vs.headD 0) then
           (MFArray.mk sh (.vscalar (vs.headD 0)) (some How.constant) fac p false nm,
            some (.one (some How.constant)))
         else
           (MFArray.mk sh (.vbuf vs) (some How.internal) fac p false nm,
            some (.one (some How.internal)))) := by
  have hraw : (MFArray.mk sh (.vscalar q) (some How.constant) fac p false nm).rawFlat
      = some (List.replicate n q) := by
    simp [MFArray.rawFlat, hsz]
  have hn : 0 < n := Nat.lt_of_le_of_lt (Nat.zero_le i) hi
  unfold MFArray.setIdx
  simp only [hraw]
  have hlen : i < (List.replicate n q).length := by simpa using hi
  rw [if_pos hlen]
  rcases hvs : (List.replicate n q).set i x with _ | ⟨v0, rest⟩
  · exfalso
    have := congrArg List.length hvs
    simp at this
    omega
  · simp only [MFArray.setWith, List.headD_cons]
    by_cases hcl : allclose (v0 :: rest) v0 = true
    · simp [hcl, MFArray.howProp]
    · simp only [Bool.not_eq_true] at hcl
      simp [hcl, MFArray.howProp]

/-- Witness for C2 (amended) exercising the promotion branch: setting
position 1 of the Constant scalar-1 array of shape (2,) to 7 yields
the Internal buffer [1, 7]. -/
theorem constant_setitem_allclose_collapse_witness :
    (PyShape.tup [some 2]).size? = some 2
    ∧ ((MFArray.mk (.tup [some 2]) (.vscalar 1) (some How.constant) none none false
        (some "a")).setIdx 1 7,
       ((MFArray.mk (.tup [some 2]) (.vscalar 1) (some How.constant) none none false
        (some "a")).setIdx 1 7).howProp)
      = (let vs := (List.replicate 2 (1 : ℚ)).set 1 7
         if allclose vs (vs.headD 0) then
           (MFArray.mk (.tup [some 2]) (.vscalar (vs.headD 0)) (some How.constant) none none
              false (some "a"), some (.one (some How.constant)))
         else
           (MFArray.mk (.tup [some 2]) (.vbuf vs) (some How.internal) none none false
              (some "a"), some (.one (some How.internal)))) :=
  ⟨rfl, constant_setitem_allclose_collapse (.tup [some 2]) 2 1 7 none none (some "a") 1
    rfl (by norm_num)⟩

/-- Fields of a representation produced by a successful _load: it
carries the shape it was given, is never layered, and its factor and
how properties are the scalar forms. -/
theorem load0_ok_fields {f : Stream} {cwd : FS} {sh : PyShape} {nm : Option String}
    {a : MFArray} {f2 : Stream}
    (h : MFArray.load0 f cwd sh nm = Except.ok (a, f2)) :
    a.shapeF = sh ∧ a.layeredF = false ∧ a.factorProp = some (.one a.factorScalar)
      ∧ a.howProp = some (.one a.howF) := by
  unfold MFArray.load0 at h
  repeat' split at h
  all_goals (first
    | exact Except.noConfusion h
    | (injection h with h1
       have ha := congrArg Prod.fst h1
       cases ha
       exact ⟨rfl, rfl, rfl, rfl⟩))

/-- C8: with a symbolic (string) shape, no model_shape, and a
dimensions context supplied (mempath containing the dis component),
MFArray.load resolves the shape as (nlay, nrow, ncol) when nrow and
ncol are truthy, else (nlay, ncpl) when ncpl is truthy, else the flat
nodes count when truthy — in that priority order — and any
successfully loaded representation carries the resolved shape, the
resolution having happened before the representation was built. -/
theorem symbolic_shape_resolution_priority
    (d : Dims) (mp s : String) (nm : Option String)
    (hdis : "dis" ∈ pySplitSlash mp) :
    ((truthyO d.nrow && truthyO d.ncol) = true →
        resolveShape none (some d) (some mp) (.str s)
          = Except.ok (.tup [d.nlay, d.nrow, d.ncol]))
    ∧ ((truthyO d.nrow && truthyO d.ncol) = false → truthyO d.ncpl = true →
        resolveShape none (some d) (some mp) (.str s) = Except.ok (.tup [d.nlay, d.ncpl]))
    ∧ ((truthyO d.nrow && truthyO d.ncol) = false → truthyO d.ncpl = false →
        ∀ nn : ℕ, d.nodes = some nn → nn ≠ 0 →
        resolveShape none (some d) (some mp) (.str s) = Except.ok (.nat nn))
    ∧ (∀ (f : Stream) (cwd : FS) (a : MFArray) (f2 : Stream),
        MFArray.load f cwd (.str s) false (LoadKw.mk false nm none (some d) (some mp))
          = Except.ok (a, f2) →
        resolveShape none (some d) (some mp) (.str s) = Except.ok a.shapeF) := by
  refine ⟨?_, ?_, ?_, ?_⟩
  · intro h1
    simp [resolveShape, hdis, h1]
  · intro h1 h2
    simp only [resolveShape, if_pos hdis, h1, h2]
    rfl
  · intro h1 h2 nn hnn hz
    simp only [resolveShape, if_pos hdis, h1, h2, Bool.false_eq_true, if_false, hnn]
    simp [truthyO, hz]
  · intro f cwd a f2 h
    unfold MFArray.load at h
    simp only [if_neg (Bool.false_ne_true), Bool.false_eq_true] at h
    rcases hres : resolveShape none (some d) (some mp) (.str s) with e | shape
    · rw [hres] at h
      exact Except.noConfusion h
    · rw [hres] at h
      simp only [Bool.false_eq_true, if_neg] at h
      have := (load0_ok_fields h).1
      rw [this]

/-- Witness for C8: all dimensions present picks (nlay, nrow, ncol). -/
theorem symbolic_shape_resolution_priority_witness :
    resolveShape none (some (Dims.mk (some 3) (some 4) (some 5) (some 6) (some 7)))
      (some "sim/dis") (.str "shp") = Except.ok (.tup [some 3, some 4, some 5]) :=
  (symbolic_shape_resolution_priority
    (Dims.mk (some 3) (some 4) (some 5) (some 6) (some 7)) "sim/dis" "shp" none
    (by decide)).1 (by decide)

/-- The layer loop loads exactly its count of representations, each
with the given shape and non-layered. -/
theorem loadLayers_ok {L : ℕ} {f : Stream} {cwd : FS} {sh : PyShape}
    {ls : List MFArray} {f2 : Stream}
    (h : loadLayers L f cwd sh = Except.ok (ls, f2)) :
    ls.length = L ∧ ∀ c ∈ ls, c.shapeF = sh ∧ c.layeredF = false := by
  induction L generalizing f ls f2 with
  | zero =>
      unfold loadLayers at h
      injection h with h1
      have ha := congrArg Prod.fst h1
      simp only at ha
      subst ha
      exact ⟨rfl, by intro c hc; cases hc⟩
  | succ n ih =>
      unfold loadLayers at h
      split at h
      · exact Except.noConfusion h
      · rename_i r1 heq1
        split at h
        · exact Except.noConfusion h
        · rename_i r2 heq2
          injection h with h1
          have ha := congrArg Prod.fst h1
          simp only at ha
          subst ha
          obtain ⟨hl, hc⟩ := ih heq2
          refine ⟨by simp [hl], ?_⟩
          intro c hc2
          rcases List.mem_cons.mp hc2 with rfl | hmem
          · obtain ⟨hsh, hlay, _, _⟩ := load0_ok_fields heq1
            exact ⟨hsh, hlay⟩
          · exact hc c hmem

/-- Factors of a list of non-layered layers. -/
theorem factorPropList_nonlayered {ls : List MFArray}
    (h : ∀ c ∈ ls, c.layeredF = false) :
    factorPropList ls = some (ls.map (fun c => FactorV.one c.factorScalar)) := by
  induction ls with
  | nil => rfl
  | cons a as ih =>
      have ha := h a (List.mem_cons_self a as)
      have hfa : a.factorProp = some (.one a.factorScalar) := by
        cases a with
        | mk sh v how fac p lay nm =>
            simp only [MFArray.layeredF] at ha
            subst ha
            rfl
      have hrest := ih (fun c hc => h c (List.mem_cons_of_mem a hc))
      simp [factorPropList, hfa, hrest]

/-- Hows of a list of non-layered layers. -/
theorem howPropList_nonlayered {ls : List MFArray}
    (h : ∀ c ∈ ls, c.layeredF = false) :
    howPropList ls = some (ls.map (fun c => HowV.one c.howF)) := by
  induction ls with
  | nil => rfl
  | cons a as ih =>
      have ha := h a (List.mem_cons_self a as)
      have hfa : a.howProp = some (.one a.howF) := by
        cases a with
        | mk sh v how fac p lay nm =>
            simp only [MFArray.layeredF] at ha
            subst ha
            rfl
      have hrest := ih (fun c hc => h c (List.mem_cons_of_mem a hc))
      simp [howPropList, hfa, hrest]

/-- C6: when layered loading is requested, either through the layered
hint or through a header line whose second token is LAYERED, for a
shape with outer dimension L, MFArray.load reads exactly L nested
representations of shape shape[1:], returns them wrapped in a
representation with layered True whose top-level how and factor
fields are None, and the factor and how queries on it return the
per-layer lists. -/
theorem layered_load_reads_outer_dimension
    (L : ℕ) (rest : List (Option ℕ)) (cwd : FS) (nm : String) :
    (∀ (f : Stream) (ls : List MFArray) (f2 : Stream),
        loadLayers L f cwd (.tup rest) = Except.ok (ls, f2) →
        MFArray.load f cwd (.tup (some L :: rest)) false
            (LoadKw.mk true (some nm) none none none)
          = Except.ok (MFArray.mk (.tup (some L :: rest)) (.vlayers ls) none none none true
              (some nm), f2)
        ∧ ls.length = L
        ∧ (∀ c ∈ ls, c.shapeF = .tup rest ∧ c.layeredF = false)
        ∧ (MFArray.mk (.tup (some L :: rest)) (.vlayers ls) none none none true
            (some nm)).howF = none
        ∧ (MFArray.mk (.tup (some L :: rest)) (.vlayers ls) none none none true
            (some nm)).factorF = none
        ∧ (MFArray.mk (.tup (some L :: rest)) (.vlayers ls) none none none true
            (some nm)).factorProp
            = some (FactorV.per (ls.map (fun c => FactorV.one c.factorScalar)))
        ∧ (MFArray.mk (.tup (some L :: rest)) (.vlayers ls) none none none true
            (some nm)).howProp
            = some (HowV.per (ls.map (fun c => HowV.one c.howF))))
    ∧ (∀ (f f1 : Stream) (hl : Line) (ls : List MFArray) (f2 : Stream),
        multiLineStrip f = some (hl, f1) →
        hl.head? = some (Tok.word nm) →
        hl.get? 1 = some (Tok.word "layered") →
        loadLayers L f1 cwd (.tup rest) = Except.ok (ls, f2) →
        MFArray.load f cwd (.tup (some L :: rest)) true
            (LoadKw.mk false none none none none)
          = Except.ok (MFArray.mk (.tup (some L :: rest)) (.vlayers ls) none none none true
              (some nm), f2)) := by
  constructor
  · intro f ls f2 h
    obtain ⟨hlen, hch⟩ := loadLayers_ok h
    have hchl : ∀ c ∈ ls, c.layeredF = false := fun c hc => (hch c hc).2
    refine ⟨?_, hlen, (fun c hc => ⟨(hch c hc).1, (hch c hc).2⟩), rfl, rfl, ?_, ?_⟩
    · unfold MFArray.load
      simp only [if_neg (Bool.false_ne_true)]
      simp only [resolveShape, h]
      simp
    · simp [MFArray.factorProp, factorPropList_nonlayered hchl]
    · simp [MFArray.howProp, howPropList_nonlayered hchl]
  · intro f f1 hl ls f2 h1 h2 h3 h4
    unfold MFArray.load
    simp only [h1, h2, h3]
    simp only [resolveShape]
    simp [h4]
/-- Witness for C6: a shape (2, 2) layered load (hint route) of two
CONSTANT layers produces two nested representations of shape (2,)
wrapped with how None, factor None, layered True. -/
theorem layered_load_reads_outer_dimension_witness :
    MFArray.load [[Tok.word "CONSTANT", Tok.num 3], [Tok.word "CONSTANT", Tok.num 4]] []
        (.tup [some 2, some 2]) false (LoadKw.mk true (some "k") none none none)
      = Except.ok (MFArray.mk (.tup [some 2, some 2])
          (.vlayers [MFArray.mk (.tup [some 2]) (.vscalar 3) (some How.constant) none none
              false none,
            MFArray.mk (.tup [some 2]) (.vscalar 4) (some How.constant) none none false none])
          none none none true (some "k"), []) :=
  ((layered_load_reads_outer_dimension 2 [some 2] [] "k").1
    [[Tok.word "CONSTANT", Tok.num 3], [Tok.word "CONSTANT", Tok.num 4]]
    [MFArray.mk (.tup [some 2]) (.vscalar 3) (some How.constant) none none false none,
     MFArray.mk (.tup [some 2]) (.vscalar 4) (some How.constant) none none false none]
    [] (by rfl)).1

/-- A line of numerals has no comment tokens to strip. -/
theorem lineStripL_numLine (vs : List ℚ) : lineStripL (numLine vs) = numLine vs := by
  induction vs with
  | nil => rfl
  | cons a t ih => simp [numLine, lineStripL, isCommentTok, List.takeWhile, ih]

/-- Parsing a line of numerals recovers their values. -/
theorem parseNums_numLine (vs : List ℚ) : parseNums (numLine vs) = vs := by
  induction vs with
  | nil => rfl
  | cons a t ih => simpa [numLine, parseNums] using ih

/-- A non-empty line of plainly rendered numerals matches the
numeric-only pattern. -/
theorem isNumericLine_numLine (vs : List ℚ) (hne : vs ≠ []) (h : vs.all rendersPlain = true) :
    isNumericLine (numLine vs) = true := by
  simp [isNumericLine, numLine, List.all_map, isPlainNumTok, Function.comp]
  exact ⟨hne, by simpa [Function.comp] using h⟩

/-- read_array on a stream holding one line of plainly rendered
numerals consumes it entirely. -/
theorem readArrayGo_single (vs : List ℚ) (hne : vs ≠ []) (h : vs.all rendersPlain = true) :
    readArrayGo [numLine vs] = (vs, []) := by
  unfold readArrayGo
  rw [lineStripL_numLine, if_pos (isNumericLine_numLine vs hne h)]
  simp [readArrayGo, parseNums_numLine]
/-- MFArray.load with a header consisting only of the (upper-cased,
non-comment) parameter name consumes that line and delegates to _load
with the lower-cased name; a one-token header line never turns
layering on and a concrete shape resolves to itself. -/
theorem load_header_step (nm : String) (hnm : isCommentTok (Tok.word (pyUpper nm)) = false)
    (rest : Stream) (cwd : FS) (sh : PyShape) :
    MFArray.load ([Tok.word (pyUpper nm)] :: rest) cwd sh true
        (LoadKw.mk false none none none none)
      = MFArray.load0 rest cwd sh (some (pyLower (pyUpper nm))) := by
  have h1 : multiLineStrip ([Tok.word (pyUpper nm)] :: rest)
      = some ([Tok.word (pyLower (pyUpper nm))], rest) := by
    unfold multiLineStrip
    simp [lineStripL, hnm, lowerLine, lowerTok]
  unfold MFArray.load
  simp only [h1]
  simp [resolveShape]
/-- Loading from an INTERNAL control line (with a truthy-or-absent
factor) followed by one line of plainly rendered values yields the
Internal representation of those values with the factor restored. -/
theorem load0_internal_ctl (cwd : FS) (sh : PyShape) (nm2 : Option String) (vs : List ℚ)
    (fac : Option ℚ) (hne : vs ≠ []) (hpl : vs.all rendersPlain = true)
    (hfac : fac = none ∨ ∃ φ, fac = some φ ∧ φ ≠ 0) :
    MFArray.load0 (internalCtl fac :: [numLine vs]) cwd sh nm2
      = Except.ok (MFArray.mk sh (.vbuf vs) (some How.internal) fac none false nm2, []) := by
  have h4 : readArrayGo [numLine vs] = (vs, []) := readArrayGo_single vs hne hpl
  rcases hfac with rfl | ⟨φ, rfl, hφ⟩
  · have hctl : internalCtl none = [Tok.word "INTERNAL"] := rfl
    have h1 : multiLineStrip ([Tok.word "INTERNAL"] :: [numLine vs])
        = some ([Tok.word "internal"], [numLine vs]) := rfl
    have h2 : stripIprn [Tok.word "internal"] = Except.ok [Tok.word "internal"] := rfl
    have h3 : fromTok (Tok.word "internal") = some How.internal := by decide
    have h5 : parseFactor [Tok.word "internal"] 2 = Except.ok none := rfl
    unfold MFArray.load0
    rw [hctl]
    simp only [h1, h2, h3, h4, h5]
    rfl
  · have hctl : internalCtl (some φ)
        = [Tok.word "INTERNAL", Tok.word "FACTOR", Tok.num φ] := by
      simp [internalCtl, factorTruthy, hφ]
    have h1 : multiLineStrip ([Tok.word "INTERNAL", Tok.word "FACTOR", Tok.num φ]
          :: [numLine vs])
        = some ([Tok.word "internal", Tok.word "factor", Tok.num φ], [numLine vs]) := rfl
    have h2 : stripIprn [Tok.word "internal", Tok.word "factor", Tok.num φ]
        = Except.ok [Tok.word "internal", Tok.word "factor", Tok.num φ] := rfl
    have h3 : fromTok (Tok.word "internal") = some How.internal := by decide
    have h5 : parseFactor [Tok.word "internal", Tok.word "factor", Tok.num φ] 2
        = Except.ok (some φ) := rfl
    unfold MFArray.load0
    rw [hctl]
    simp only [h1, h2, h3, h4, h5]
    rfl

/-- Loading from a CONSTANT control line yields the Constant
representation of the scalar with no factor. -/
theorem load0_constant_ctl (cwd : FS) (sh : PyShape) (nm2 : Option String) (q : ℚ) :
    MFArray.load0 [[Tok.word "CONSTANT", Tok.num q]] cwd sh nm2
      = Except.ok (MFArray.mk sh (.vscalar q) (some How.constant) none none false nm2, []) := by
  have h1 : multiLineStrip [[Tok.word "CONSTANT", Tok.num q]]
      = some ([Tok.word "constant", Tok.num q], []) := rfl
  have h2 : stripIprn [Tok.word "constant", Tok.num q]
      = Except.ok [Tok.word "constant", Tok.num q] := rfl
  have h3 : fromTok (Tok.word "constant") = some How.constant := by decide
  have h5 : parseFactor [Tok.word "constant", Tok.num q] 3 = Except.ok none := rfl
  unfold MFArray.load0
  simp only [h1, h2, h3, h5]
  rfl

/-- Loading from an OPEN/CLOSE control line whose (lower-case,
non-comment, non-iprn) path is present in the working directory
yields the External representation holding that path and the file
contents, with no factor. -/
theorem load0_external_ctl (cwd : FS) (sh : PyShape) (nm2 : Option String) (p : String)
    (content : Stream)
    (hp : pyLower p = p) (hpc : isCommentTok (Tok.word p) = false) (hpi : p ≠ "iprn")
    (hfs : fsLookup cwd p = some content) :
    MFArray.load0 [[Tok.word "OPEN/CLOSE", Tok.word p]] cwd sh nm2
      = Except.ok (MFArray.mk sh (.vbuf (readArrayGo content).1) (some How.external) none
          (some p) false nm2, []) := by
  have h1 : multiLineStrip [[Tok.word "OPEN/CLOSE", Tok.word p]]
      = some ([Tok.word "open/close", Tok.word (pyLower p)], []) := by
    unfold multiLineStrip lineStripL
    rw [List.takeWhile_cons, List.takeWhile_cons]
    rw [show isCommentTok (Tok.word "OPEN/CLOSE") = false from by decide]
    rw [hpc]
    rfl
  rw [hp] at h1
  have h2 : stripIprn [Tok.word "open/close", Tok.word p]
      = Except.ok [Tok.word "open/close", Tok.word p] := by
    unfold stripIprn iprnIdx
    rw [if_neg (by decide : ¬ ("open/close" = "iprn"))]
    unfold iprnIdx
    rw [if_neg hpi]
    rfl
  have hred : MFArray.load0 [[Tok.word "OPEN/CLOSE", Tok.word p]] cwd sh nm2
      = (match fsLookup cwd p with
         | none => Except.error (LoadErr.ioError p)
         | some c =>
             Except.ok (MFArray.mk sh (.vbuf (readArrayGo c).1) (some How.external) none
               (some p) false nm2, [])) := by
    unfold MFArray.load0
    simp only [h1, h2]
    rfl
  rw [hred, hfs]
/-- The writer output for a rank-1 Internal array: the name line, the
control line, and one line holding every value. -/
theorem write_internal_rank1 (sh : PyShape) (nm : String) (vs : List ℚ) (fac : Option ℚ)
    (hsz : sh.size? = some vs.length) (hrk : sh.rank = 1) :
    (MFArray.mk sh (.vbuf vs) (some How.internal) fac none false (some nm)).write
      = some [[Tok.word (pyUpper nm)], internalCtl fac, numLine vs] := by
  have hraw : (MFArray.mk sh (.vbuf vs) (some How.internal) fac none false (some nm)).rawFlat
      = some vs := by
    simp [MFArray.rawFlat, hsz]
  unfold MFArray.write
  simp only [MFArray.nameF, MFArray.layeredF, hraw, MFArray.howF, MFArray.shapeF, hrk]
  rfl

/-- The writer output for a Constant array: the name line and the
CONSTANT control line.  The stored factor of this array is absent;
the writer would drop it in any case (array.py lines 413-418 emit no
FACTOR clause). -/
theorem write_constant (sh : PyShape) (nm : String) (q : ℚ) (m : ℕ)
    (hsz : sh.size? = some m) :
    (MFArray.mk sh (.vscalar q) (some How.constant) none none false (some nm)).write
      = some [[Tok.word (pyUpper nm)], [Tok.word "CONSTANT", Tok.num q]] := by
  have hraw : (MFArray.mk sh (.vscalar q) (some How.constant) none none false
      (some nm)).rawFlat = some (List.replicate m q) := by
    simp [MFArray.rawFlat, hsz]
  unfold MFArray.write
  simp only [MFArray.nameF, MFArray.layeredF, hraw, MFArray.howF, MFArray.valF]
  rfl

/-- The writer output for an External array: the name line and the
OPEN/CLOSE control line.  No FACTOR clause is ever emitted for this
variant (array.py lines 407-412). -/
theorem write_external (sh : PyShape) (nm : String) (vs : List ℚ) (p : String)
    (hsz : sh.size? = some vs.length) :
    (MFArray.mk sh (.vbuf vs) (some How.external) none (some p) false (some nm)).write
      = some [[Tok.word (pyUpper nm)], [Tok.word "OPEN/CLOSE", Tok.word p]] := by
  have hraw : (MFArray.mk sh (.vbuf vs) (some How.external) none (some p) false
      (some nm)).rawFlat = some vs := by
    simp [MFArray.rawFlat, hsz]
  unfold MFArray.write
  simp only [MFArray.nameF, MFArray.layeredF, hraw, MFArray.howF, MFArray.pathF]
  rfl
/-- C1 (amended): writing then re-loading a non-layered MFArray
restores the variant tag, the raw values (the path for External,
whose content is re-read from the file), and the factor so far as the
writer preserves it: an Internal rank-1 array with plainly rendered
(non-negative, plain-decimal) values and an absent-or-nonzero factor
round-trips how, factor and raw values exactly; a Constant array
round-trips how, scalar and raw values, with the factor restored as
None because the writer emits no FACTOR clause for it; an External
array whose lower-case path exists in the working directory
round-trips how and path, the factor again restored as None. -/
theorem write_load_roundtrip_amended
    (nm : String) (cwd : FS)
    (hnm : isCommentTok (Tok.word (pyUpper nm)) = false) :
    (∀ (sh : PyShape) (vs : List ℚ) (fac : Option ℚ),
        sh.size? = some vs.length → sh.rank = 1 → vs ≠ [] →
        vs.all rendersPlain = true →
        (fac = none ∨ ∃ φ, fac = some φ ∧ φ ≠ 0) →
        ∃ b : MFArray,
          (MFArray.mk sh (.vbuf vs) (some How.internal) fac none false (some nm)).write
            = some [[Tok.word (pyUpper nm)], internalCtl fac, numLine vs]
          ∧ MFArray.load [[Tok.word (pyUpper nm)], internalCtl fac, numLine vs] cwd sh true
              (LoadKw.mk false none none none none) = Except.ok (b, [])
          ∧ b.howF = some How.internal ∧ b.factorF = fac ∧ b.rawFlat = some vs
          ∧ b.layeredF = false)
    ∧ (∀ (sh : PyShape) (q : ℚ) (m : ℕ),
        sh.size? = some m →
        ∃ b : MFArray,
          (MFArray.mk sh (.vscalar q) (some How.constant) none none false (some nm)).write
            = some [[Tok.word (pyUpper nm)], [Tok.word "CONSTANT", Tok.num q]]
          ∧ MFArray.load [[Tok.word (pyUpper nm)], [Tok.word "CONSTANT", Tok.num q]] cwd sh
              true (LoadKw.mk false none none none none) = Except.ok (b, [])
          ∧ b.howF = some How.constant ∧ b.factorF = none ∧ b.valF = .vscalar q
          ∧ b.rawFlat = (MFArray.mk sh (.vscalar q) (some How.constant) none none false
              (some nm)).rawFlat)
    ∧ (∀ (sh : PyShape) (vs : List ℚ) (p : String) (content : Stream),
        sh.size? = some vs.length →
        pyLower p = p → isCommentTok (Tok.word p) = false → p ≠ "iprn" →
        fsLookup cwd p = some content →
        ∃ b : MFArray,
          (MFArray.mk sh (.vbuf vs) (some How.external) none (some p) false (some nm)).write
            = some [[Tok.word (pyUpper nm)], [Tok.word "OPEN/CLOSE", Tok.word p]]
          ∧ MFArray.load [[Tok.word (pyUpper nm)], [Tok.word "OPEN/CLOSE", Tok.word p]] cwd
              sh true (LoadKw.mk false none none none none) = Except.ok (b, [])
          ∧ b.howF = some How.external ∧ b.factorF = none ∧ b.pathF = some p) := by
  refine ⟨?_, ?_, ?_⟩
  · intro sh vs fac hsz hrk hne hpl hfac
    refine ⟨MFArray.mk sh (.vbuf vs) (some How.internal) fac none false
      (some (pyLower (pyUpper nm))), write_internal_rank1 sh nm vs fac hsz hrk, ?_, rfl, rfl,
      by simp [MFArray.rawFlat, hsz], rfl⟩
    have hstep := load_header_step nm hnm (internalCtl fac :: [numLine vs]) cwd sh
    rw [show ([[Tok.word (pyUpper nm)], internalCtl fac, numLine vs] : Stream)
        = [Tok.word (pyUpper nm)] :: (internalCtl fac :: [numLine vs]) from rfl, hstep]
    exact load0_internal_ctl cwd sh (some (pyLower (pyUpper nm))) vs fac hne hpl hfac
  · intro sh q m hsz
    refine ⟨MFArray.mk sh (.vscalar q) (some How.constant) none none false
      (some (pyLower (pyUpper nm))), write_constant sh nm q m hsz, ?_, rfl, rfl, rfl, rfl⟩
    have hstep := load_header_step nm hnm [[Tok.word "CONSTANT", Tok.num q]] cwd sh
    rw [show ([[Tok.word (pyUpper nm)], [Tok.word "CONSTANT", Tok.num q]] : Stream)
        = [Tok.word (pyUpper nm)] :: [[Tok.word "CONSTANT", Tok.num q]] from rfl, hstep]
    exact load0_constant_ctl cwd sh (some (pyLower (pyUpper nm))) q
  · intro sh vs p content hsz hp hpc hpi hfs
    refine ⟨MFArray.mk sh (.vbuf (readArrayGo content).1) (some How.external) none (some p)
      false (some (pyLower (pyUpper nm))), write_external sh nm vs p hsz, ?_, rfl, rfl, rfl⟩
    have hstep := load_header_step nm hnm [[Tok.word "OPEN/CLOSE", Tok.word p]] cwd sh
    rw [show ([[Tok.word (pyUpper nm)], [Tok.word "OPEN/CLOSE", Tok.word p]] : Stream)
        = [Tok.word (pyUpper nm)] :: [[Tok.word "OPEN/CLOSE", Tok.word p]] from rfl, hstep]
    exact load0_external_ctl cwd sh (some (pyLower (pyUpper nm))) p content hp hpc hpi hfs
/-- C1 (counterexample): the claim as stated fails on a Constant
array with a factor: writing the Constant array of scalar 5, shape
(2,) and factor 2 emits CONSTANT 5 with no FACTOR clause (array.py
lines 413-418), and re-loading yields factor None, not the original
factor 2. -/
theorem write_then_load_drops_constant_factor :
    (MFArray.mk (.tup [some 2]) (.vscalar 5) (some How.constant) (some 2) none false
      (some "arr")).factorF = some 2
    ∧ (MFArray.mk (.tup [some 2]) (.vscalar 5) (some How.constant) (some 2) none false
        (some "arr")).write = some [[Tok.word "ARR"], [Tok.word "CONSTANT", Tok.num 5]]
    ∧ MFArray.load [[Tok.word "ARR"], [Tok.word "CONSTANT", Tok.num 5]] [] (.tup [some 2])
        true (LoadKw.mk false none none none none)
      = Except.ok (MFArray.mk (.tup [some 2]) (.vscalar 5) (some How.constant) none none
          false (some "arr"), [])
    ∧ (none : Option ℚ) ≠ some 2 := by
  refine ⟨rfl, ?_, ?_, by simp⟩
  · rfl
  · rfl

/-- Witness for C1 (amended) on an Internal array of values
[1, 2, 3] with factor 3/2. -/
theorem write_load_roundtrip_amended_witness :
    ∃ b : MFArray,
      (MFArray.mk (.tup [some 3]) (.vbuf [1, 2, 3]) (some How.internal) (some (3 / 2)) none
          false (some "arr")).write
        = some [[Tok.word (pyUpper "arr")], internalCtl (some (3 / 2)), numLine [1, 2, 3]]
      ∧ MFArray.load [[Tok.word (pyUpper "arr")], internalCtl (some (3 / 2)),
            numLine [1, 2, 3]] [] (.tup [some 3]) true (LoadKw.mk false none none none none)
          = Except.ok (b, [])
      ∧ b.howF = some How.internal ∧ b.factorF = some (3 / 2) ∧ b.rawFlat = some [1, 2, 3]
      ∧ b.layeredF = false :=
  (write_load_roundtrip_amended "arr" [] (by decide)).1 (.tup [some 3]) [1, 2, 3]
    (some (3 / 2)) (by decide) (by decide) (by decide)
    (by norm_num [List.all, rendersPlain])
    (Or.inr ⟨3 / 2, rfl, by norm_num⟩)
end Flopy4
